import Mathlib

/-!
Shallow embedding of `src/endpoints/WholeEarthSatelliteImage/index.js`:
a stale-while-revalidate disk cache for NASA EPIC whole-earth imagery.

The file-system state visible to this endpoint is the metadata cache file
(`cache/earth-images.json`) and the image directory (`cache/images`).
Timestamps are `Int` milliseconds (JS `Date.now()` arithmetic).
The image directory is a finite set of filenames; `none` models a directory
that does not exist yet.
-/

namespace EarthCache

/-- Constant `CACHE_DURATION = 12 * 60 * 60 * 1000` (12 hours in milliseconds), line 11. -/
def CACHE_DURATION : Int := 12 * 60 * 60 * 1000

/-- One entry of the cached `data` array: the NASA image id plus the derived
local URL (`imagesWithUrls` entries; provider metadata fields not used by any
cache logic are omitted). -/
structure Item where
  image : String
  imageUrl : String
deriving DecidableEq, Repr

/-- The persisted metadata record written by `saveToCache` (lines 54-65):
`{ timestamp, data }`. -/
structure CacheRecord where
  timestamp : Int
  data : List Item
deriving DecidableEq, Repr

/-- File-system state: the metadata cache file (`CACHE_FILE`) and the image
directory (`CACHE_IMAGES_DIR`); `images = none` means the directory does not
exist. -/
structure FS where
  cacheFile : Option CacheRecord
  images : Option (Finset String)
deriving DecidableEq

/-- The set of blobs currently stored (empty when the directory is absent). -/
def blobSet (fs : FS) : Finset String := fs.images.getD ∅

/-- Test `fs.existsSync(path.join(CACHE_IMAGES_DIR, name))`. -/
def imgExists (fs : FS) (name : String) : Bool :=
  match fs.images with
  | none => false
  | some s => name ∈ s

/-- Final on-disk filename for an image id: `` `${img.image}.png` `` (line 36,
line 180, line 267). -/
def finalFilename (id : String) : String := id ++ ".png"

/-- The staleness test `now - cachedData.timestamp >= CACHE_DURATION`
(line 42). -/
def isStale (now ts : Int) : Bool := decide (now - ts ≥ CACHE_DURATION)

/-- Result of `getCachedData`: the cached `data` array plus the `isStale`
bit. -/
structure CacheResult where
  data : List Item
  isStale : Bool
deriving DecidableEq, Repr

/-- Function `getCachedData` (lines 25-51): returns `none` when the cache file is
absent, or when any referenced image blob is missing from the image
directory; otherwise the record with its staleness bit. -/
def getCachedData (now : Int) (fs : FS) : Option CacheResult :=
  match fs.cacheFile with
  | none => none
  | some c =>
      if c.data.all (fun img => imgExists fs (finalFilename img.image))
      then some ⟨c.data, isStale now c.timestamp⟩
      else none

/-- Function `ensureCacheDir` (lines 14-22): creates the image directory if absent. -/
def ensureCacheDir (fs : FS) : FS :=
  { fs with images := some (fs.images.getD ∅) }

/-- Function `saveToCache` (lines 54-65): ensures directories, then overwrites the
metadata file with `{ timestamp: Date.now(), data }`. -/
def saveToCache (now : Int) (data : List Item) (fs : FS) : FS :=
  let fs1 := ensureCacheDir fs
  { fs1 with cacheFile := some ⟨now, data⟩ }

/-- Function `downloadAndCacheImage` (lines 68-91): `ensureCacheDir`, then fetch the
image (`ok` models whether the fetch succeeds) and on success write the bytes
under `tempFilename`; on failure the error is rethrown and no file is
written. Returns the updated file system and whether the download
succeeded. -/
def downloadAndCacheImage (ok : Bool) (tempFilename : String) (fs : FS) :
    FS × Bool :=
  let fs1 := ensureCacheDir fs
  if ok then
    ({ fs1 with images := some (insert tempFilename (fs1.images.getD ∅)) },
     true)
  else (fs1, false)

end EarthCache

namespace EarthCache

/-- One entry of `downloadedImages` (lines 192-195): the temp filename the
blob was staged under and the final filename it will be renamed to. -/
structure DI where
  tempPath : String
  finalFilename : String
deriving DecidableEq, Repr

/-- Step 1 of `finalizeCacheUpdate` (lines 98-107): every file in the
directory that is not one of the staged temp filenames is deleted; the
remaining set is the directory filtered to the temp names. -/
def deleteOldFiles (tempFileNames : List String) (files : Finset String) :
    Finset String :=
  files.filter (fun f => f ∈ tempFileNames)

/-- Step 2 of `finalizeCacheUpdate` (lines 110-113): rename each staged temp
file to its final name, in order. `renameSync` on a missing source throws,
which the surrounding `catch` absorbs, abandoning the remaining renames; this
is modelled by stopping at the first missing temp file. -/
def renameAll : List DI → Finset String → Finset String
  | [], files => files
  | d :: rest, files =>
      if d.tempPath ∈ files
      then renameAll rest (insert d.finalFilename (files.erase d.tempPath))
      else files

/-- Function `finalizeCacheUpdate` (lines 94-121): if the image directory exists,
delete every file not in the staged temp-name set, then rename each temp file
to its final name. -/
def finalizeCacheUpdate (downloadedImages : List DI) (fs : FS) : FS :=
  match fs.images with
  | none => fs
  | some files =>
      let tempFileNames := downloadedImages.map DI.tempPath
      { fs with
        images :=
          some (renameAll downloadedImages
            (deleteOldFiles tempFileNames files)) }

end EarthCache

namespace EarthCache

/-- Observable actions of a fetch-and-cache cycle, in execution order:
setting the `isRefreshing` flag, the bulk list fetch, each staged blob write,
the publish (`finalizeCacheUpdate`) step, and the metadata save. -/
inductive Action where
  | setFlag (b : Bool)
  | fetchList
  | stageWrite (name : String)
  | publish
  | save
deriving DecidableEq, Repr

/-- One element of the NASA EPIC bulk list response (only the `image` id is
consumed by the cache logic; the `date` field feeds only the provider URL). -/
structure RawImg where
  image : String
deriving DecidableEq, Repr

/-- Environment of one fetch-and-cache cycle: the `NASA_API_KEY`, the outcome
of the bulk list fetch (`none` = network error or non-ok status), the outcome
of each per-image download keyed by image id, the value of `Date.now()` at
each loop iteration (used in temp filenames), and the `Date.now()` used by
`saveToCache`. -/
structure RefreshInput where
  apiKey : Option String
  listResult : Option (List RawImg)
  dlOk : String → Bool
  itemTime : Nat → Int
  now : Int

/-- Temp filename for a staged download:
`` `temp_${Date.now()}_${img.image}.png` `` (line 181). -/
def tempFilename (t : Int) (id : String) : String :=
  "temp_" ++ toString t ++ "_" ++ id ++ ".png"

/-- Derived local URL: `` `/WholeEarthSatelliteImage/image/${img.image}.png` ``
(line 200). -/
def imageUrlFor (id : String) : String :=
  "/WholeEarthSatelliteImage/image/" ++ id ++ ".png"

/-- Loop state of the background staging loop (lines 164-166):
`downloadedImages`, `imagesWithUrls`, the evolving file system, and the trace
of blob writes performed so far. -/
structure StageAcc where
  fs : FS
  downloadedImages : List DI
  imagesWithUrls : List Item
  trace : List Action

/-- One iteration of the background staging loop (lines 168-207): build the
temp filename from the per-iteration `Date.now()`, attempt the download; on
success record the temp/final pair and the item, on failure skip the item. -/
def stageStep (inp : RefreshInput) (i : Nat) (img : RawImg)
    (acc : StageAcc) : StageAcc :=
  let tname := tempFilename (inp.itemTime i) img.image
  let r := downloadAndCacheImage (inp.dlOk img.image) tname acc.fs
  if r.2 then
    { fs := r.1
      downloadedImages := acc.downloadedImages ++ [⟨tname, finalFilename img.image⟩]
      imagesWithUrls := acc.imagesWithUrls ++ [⟨img.image, imageUrlFor img.image⟩]
      trace := acc.trace ++ [Action.stageWrite tname] }
  else { acc with fs := r.1 }

/-- The background staging loop over the fetched list, with the iteration
index driving the per-iteration timestamp. -/
def stageLoop (inp : RefreshInput) : List RawImg → Nat → StageAcc → StageAcc
  | [], _, acc => acc
  | img :: rest, i, acc => stageLoop inp rest (i + 1) (stageStep inp i img acc)

/-- Mutable state shared by all requests: the `isRefreshing` module-level
flag (line 124) and the file system. -/
structure SysState where
  isRefreshing : Bool
  fs : FS
deriving DecidableEq

/-- Function `refreshCacheInBackground` (lines 125-228). If the flag is set the call
returns immediately having done nothing. Otherwise the flag is set, and the
`try` body runs: missing key, failed bulk fetch and empty list each abort
(thrown, caught at line 222); otherwise every item is staged, and if at least
one item succeeded the staged set is published (`finalizeCacheUpdate`) and the
new record saved. The `finally` (line 225) clears the flag on every path. -/
def refreshCycle (inp : RefreshInput) (s : SysState) : SysState × List Action :=
  if s.isRefreshing then (s, [])
  else
    let body : FS × List Action :=
      match inp.apiKey with
      | none => (s.fs, [])
      | some _ =>
          match inp.listResult with
          | none => (s.fs, [Action.fetchList])
          | some data =>
              if data.isEmpty then (s.fs, [Action.fetchList])
              else
                let acc := stageLoop inp data 0 ⟨s.fs, [], [], []⟩
                if acc.downloadedImages.length > 0 then
                  (saveToCache inp.now acc.imagesWithUrls
                     (finalizeCacheUpdate acc.downloadedImages acc.fs),
                   Action.fetchList :: acc.trace ++ [Action.publish, Action.save])
                else (acc.fs, Action.fetchList :: acc.trace)
    (⟨false, body.1⟩, Action.setFlag true :: body.2 ++ [Action.setFlag false])

/-- Loop state of the synchronous download loop in `fetchEarthImages`
(lines 253-280). -/
structure SyncAcc where
  fs : FS
  imagesWithUrls : List Item
  trace : List Action

/-- One iteration of the synchronous download loop (lines 255-280): the
filename passed to `downloadAndCacheImage` is the FINAL filename
`` `${img.image}.png` `` — "synchronous version uses direct filenames"
(line 266-268); a failed download skips the item. -/
def syncStep (inp : RefreshInput) (img : RawImg) (acc : SyncAcc) : SyncAcc :=
  let filename := finalFilename img.image
  let r := downloadAndCacheImage (inp.dlOk img.image) filename acc.fs
  if r.2 then
    { fs := r.1
      imagesWithUrls := acc.imagesWithUrls ++ [⟨img.image, imageUrlFor img.image⟩]
      trace := acc.trace ++ [Action.stageWrite filename] }
  else { acc with fs := r.1 }

/-- The synchronous download loop over the fetched list. -/
def syncLoop (inp : RefreshInput) : List RawImg → SyncAcc → SyncAcc
  | [], acc => acc
  | img :: rest, acc => syncLoop inp rest (syncStep inp img acc)

/-- Successful result of `fetchEarthImages`: the updated file system, the
`imagesWithUrls` array it returns, and the trace of performed actions. -/
structure SyncResult where
  fs : FS
  items : List Item
  trace : List Action

/-- Function `fetchEarthImages` (lines 231-283): throws (modelled as `.error`, with
the error message and the actions performed before the throw) when the API
key is missing, the bulk fetch fails, or the list is empty; otherwise
downloads each image directly under its final filename and returns the item
array. All throwing paths occur before any file-system mutation. -/
def fetchEarthImages (inp : RefreshInput) (fs : FS) :
    Except (String × List Action) SyncResult :=
  match inp.apiKey with
  | none => .error ("NASA API key is not configured", [])
  | some _ =>
      match inp.listResult with
      | none => .error ("Failed to fetch images", [Action.fetchList])
      | some data =>
          if data.isEmpty then .error ("No images available", [Action.fetchList])
          else
            let acc := syncLoop inp data ⟨fs, [], [Action.fetchList]⟩
            .ok ⟨acc.fs, acc.imagesWithUrls, acc.trace⟩

/-- Outcome of one `GET /WholeEarthSatelliteImage` request: the HTTP status,
the JSON array of image ids, the file system afterwards, whether a background
refresh was scheduled via `setImmediate`, and the synchronous-path actions
performed while handling the request. -/
structure ReadResult where
  status : Nat
  response : List String
  fs : FS
  refreshScheduled : Bool
  trace : List Action
deriving DecidableEq

/-- Handler `router.get("/")` (lines 286-333). Cache hit: return the cached ids
immediately (status 200) and schedule a background refresh when stale and not
in demo mode. Cache miss: in demo mode return `[]`; otherwise run
`fetchEarthImages` synchronously — on success save the record and return its
ids, on error (caught at line 304) return `[]` with status 200 and an
unchanged file system. -/
def readEndpoint (inp : RefreshInput) (demoMode : Bool) (fs : FS) :
    ReadResult :=
  match getCachedData inp.now fs with
  | some cacheResult =>
      ⟨200, cacheResult.data.map Item.image, fs,
       cacheResult.isStale && !demoMode, []⟩
  | none =>
      if demoMode then ⟨200, [], fs, false, []⟩
      else
        match fetchEarthImages inp fs with
        | .ok r =>
            ⟨200, r.items.map Item.image, saveToCache inp.now r.items r.fs,
             false, r.trace ++ [Action.save]⟩
        | .error e => ⟨200, [], fs, false, e.2⟩

/-- Response of `router.get("/image/:filename")` (lines 336-370): either the 404
JSON error body or a 200 stream with the three headers set at lines
349-351. -/
structure ImgResp where
  status : Nat
  contentType : Option String
  cacheControl : Option String
  contentDisposition : Option String
  jsonError : Bool
deriving DecidableEq, Repr

/-- Handler `router.get("/image/:filename")` (lines 336-370): 404 with a JSON error
body when the file does not exist in the image cache directory; otherwise the
file is streamed with `Content-Type: image/png`,
`Cache-Control: public, max-age=43200` and a `Content-Disposition` naming the
file. Only directory existence is checked — the current cache record is never
consulted. -/
def imageEndpoint (filename : String) (fs : FS) : ImgResp :=
  if imgExists fs filename then
    ⟨200, some "image/png", some "public, max-age=43200",
     some ("inline; filename=\"" ++ filename ++ "\""), false⟩
  else ⟨404, none, none, none, true⟩

/-- Test `leadsWith p l`: `p` is an initial segment of `l` (character lists). -/
def leadsWith : List Char → List Char → Bool
  | [], _ => true
  | _ :: _, [] => false
  | a :: p, b :: l => a == b && leadsWith p l

/-- The characters of the `temp_` marker every staged temp filename begins
with. -/
def tempTag : List Char := ['t', 'e', 'm', 'p', '_']

/-- The characters of the `.png` extension every final filename ends with. -/
def pngTail : List Char := ['.', 'p', 'n', 'g']

/-- C5 helper: the boundary case `now = capturedAt + CACHE_DURATION`. -/
theorem isStale_iff (now ts : Int) :
    isStale now ts = true ↔ now - ts ≥ CACHE_DURATION := by
  simp [isStale]

/-- Claim C5, staleness boundary: the freshness test reports stale exactly when
`now - capturedAt ≥ CACHE_DURATION`, the window is exactly 12 hours in
milliseconds, a record whose age equals the window exactly is stale, and one
strictly younger is fresh; `getCachedData` computes its staleness bit with
exactly this test. -/
theorem claim_C5_staleness_boundary (now ts : Int) (c : CacheRecord)
    (fs : FS) (hrec : fs.cacheFile = some c)
    (hblobs : c.data.all (fun img => imgExists fs (finalFilename img.image)) = true) :
    (isStale now ts = true ↔ now - ts ≥ CACHE_DURATION) ∧
    CACHE_DURATION = 12 * 60 * 60 * 1000 ∧
    isStale (ts + CACHE_DURATION) ts = true ∧
    (now - ts < CACHE_DURATION → isStale now ts = false) ∧
    getCachedData now fs = some ⟨c.data, isStale now c.timestamp⟩ := by
  refine ⟨isStale_iff now ts, rfl, ?_, ?_, ?_⟩
  · simp [isStale]
  · intro h
    simp [isStale]
    omega
  · simp [getCachedData, hrec, hblobs]

/-- Witness for C5 at a concrete state: one record, its blob present. -/
theorem claim_C5_witness :
    (isStale 43200000 0 = true ↔ (43200000 : Int) - 0 ≥ CACHE_DURATION) ∧
    CACHE_DURATION = 12 * 60 * 60 * 1000 ∧
    isStale ((0 : Int) + CACHE_DURATION) 0 = true ∧
    ((43200000 : Int) - 0 < CACHE_DURATION → isStale 43200000 0 = false) ∧
    getCachedData 43200000
      ⟨some ⟨0, [⟨"a", "/WholeEarthSatelliteImage/image/a.png"⟩]⟩,
       some {"a.png"}⟩ =
      some ⟨[⟨"a", "/WholeEarthSatelliteImage/image/a.png"⟩], isStale 43200000 0⟩ :=
  claim_C5_staleness_boundary 43200000 0
    ⟨0, [⟨"a", "/WholeEarthSatelliteImage/image/a.png"⟩]⟩
    ⟨some ⟨0, [⟨"a", "/WholeEarthSatelliteImage/image/a.png"⟩]⟩, some {"a.png"}⟩
    rfl (by decide)

/-- Claim C4, cross-validation on load: with a persisted record, `getCachedData`
returns it as present exactly when every item's blob file exists in the image
directory; whenever it returns a result, that result carries the full item
list of the record (never a partial one); and with no persisted record it
returns absent. -/
theorem claim_C4_cross_validation (now : Int) (fs : FS) :
    (∀ c, fs.cacheFile = some c →
      (((getCachedData now fs).isSome = true) ↔
        ∀ img ∈ c.data, imgExists fs (finalFilename img.image) = true) ∧
      (∀ r, getCachedData now fs = some r → r.data = c.data)) ∧
    (fs.cacheFile = none → getCachedData now fs = none) := by
  constructor
  · intro c hc
    constructor
    · simp only [getCachedData, hc]
      by_cases h : c.data.all (fun img => imgExists fs (finalFilename img.image)) = true
      · simp [h]
        rw [List.all_eq_true] at h
        intro img hm
        exact h img hm
      · simp [h]
        rw [List.all_eq_true] at h
        push_neg at h
        obtain ⟨img, hm, hne⟩ := h
        exact ⟨img, hm, by simpa using hne⟩
    · intro r hr
      simp only [getCachedData, hc] at hr
      by_cases h : c.data.all (fun img => imgExists fs (finalFilename img.image)) = true
      · simp [h] at hr
        rw [← hr]
      · simp [h] at hr
  · intro h
    simp [getCachedData, h]

/-- Witness for C4: a record whose blob is missing is reported absent. -/
theorem claim_C4_witness :
    ((((getCachedData 5 ⟨some ⟨0, [⟨"a", "u"⟩]⟩, some ∅⟩).isSome = true) ↔
        ∀ img ∈ [(⟨"a", "u"⟩ : Item)],
          imgExists ⟨some ⟨0, [⟨"a", "u"⟩]⟩, some ∅⟩ (finalFilename img.image) = true) ∧
      (∀ r, getCachedData 5 ⟨some ⟨0, [⟨"a", "u"⟩]⟩, some ∅⟩ = some r →
        r.data = [(⟨"a", "u"⟩ : Item)])) :=
  (claim_C4_cross_validation 5 ⟨some ⟨0, [⟨"a", "u"⟩]⟩, some ∅⟩).1 ⟨0, [⟨"a", "u"⟩]⟩ rfl

/-- Helper: the last element of `l ++ [a]` is `a`. -/
theorem getLast?_concat_eq {α : Type} (l : List α) (a : α) :
    (l ++ [a]).getLast? = some a := by
  rw [List.getLast?_append_cons]
  rfl

/-- Helper: the last element of `x :: l ++ [a]` is `a`. -/
theorem getLast?_cons_concat_eq {α : Type} (x a : α) (l : List α) :
    (x :: l ++ [a]).getLast? = some a := by
  show ((x :: l) ++ [a]).getLast? = some a
  exact getLast?_concat_eq _ _

/-- Claim C1, refresh mutual exclusion: when the `isRefreshing` flag is already
set, a call to the background refresh is a complete no-op (state unchanged,
no fetch, no staged write, no publish, no save); when the flag is clear, the
cycle's very first action sets the flag to true, before any other work. -/
theorem claim_C1_refresh_mutex (inp : RefreshInput) (s : SysState) :
    (s.isRefreshing = true → refreshCycle inp s = (s, [])) ∧
    (s.isRefreshing = false →
      (refreshCycle inp s).2.head? = some (Action.setFlag true)) := by
  constructor
  · intro h
    simp [refreshCycle, h]
  · intro h
    simp [refreshCycle, h]

/-- Witness for C1: a concrete in-flight state is left untouched. -/
theorem claim_C1_witness :
    refreshCycle ⟨some "k", some [⟨"a"⟩], fun _ => true, fun _ => 0, 7⟩
        ⟨true, ⟨none, none⟩⟩ =
      (⟨true, ⟨none, none⟩⟩, []) :=
  (claim_C1_refresh_mutex ⟨some "k", some [⟨"a"⟩], fun _ => true, fun _ => 0, 7⟩
      ⟨true, ⟨none, none⟩⟩).1 rfl

/-- Claim C6, guaranteed flag release: whenever a background refresh cycle
actually runs (flag initially clear), on every path — missing key, failed or
empty bulk fetch, zero staged items, partial or full success — the cycle ends
with the flag reset to false, and the reset is the final action of the
cycle's trace. -/
theorem claim_C6_flag_release (inp : RefreshInput) (s : SysState)
    (h : s.isRefreshing = false) :
    (refreshCycle inp s).1.isRefreshing = false ∧
    (refreshCycle inp s).2.getLast? = some (Action.setFlag false) := by
  constructor
  · simp [refreshCycle, h]
  · simp only [refreshCycle, h, Bool.false_eq_true, if_false]
    exact getLast?_cons_concat_eq _ _ _

/-- Renaming every staged temp file to its final name turns the directory
into the old files minus the temp names, plus the final names — provided the
temp names are distinct, each staged temp file is present, and no final name
collides with a temp name. -/
theorem renameAll_spec (di : List DI) :
    ∀ (s : Finset String),
      (di.map DI.tempPath).Nodup →
      (∀ d ∈ di, d.tempPath ∈ s) →
      (∀ d ∈ di, ∀ e ∈ di, d.finalFilename ≠ e.tempPath) →
      renameAll di s =
        (s \ (di.map DI.tempPath).toFinset) ∪
          (di.map DI.finalFilename).toFinset := by
  induction di with
  | nil =>
      intro s _ _ _
      simp [renameAll]
  | cons d rest ih =>
      intro s hnd hmem hdisj
      have ht : d.tempPath ∈ s := hmem d (List.mem_cons_self d rest)
      have hnd2 : d.tempPath ∉ rest.map DI.tempPath ∧
          (rest.map DI.tempPath).Nodup := by
        simpa [List.nodup_cons] using hnd
      have hfTr : d.finalFilename ∉ (rest.map DI.tempPath).toFinset := by
        simp only [List.mem_toFinset, List.mem_map]
        rintro ⟨e, he, hee⟩
        exact hdisj d (List.mem_cons_self d rest) e
          (List.mem_cons_of_mem d he) hee.symm
      have hmem2 : ∀ e ∈ rest,
          e.tempPath ∈ insert d.finalFilename (s.erase d.tempPath) := by
        intro e he
        apply Finset.mem_insert_of_mem
        refine Finset.mem_erase.mpr ⟨?_, hmem e (List.mem_cons_of_mem d he)⟩
        intro hcontra
        exact hnd2.1 (hcontra ▸ List.mem_map_of_mem DI.tempPath he)
      have hdisj2 : ∀ a ∈ rest, ∀ e ∈ rest, a.finalFilename ≠ e.tempPath :=
        fun a ha e he =>
          hdisj a (List.mem_cons_of_mem d ha) e (List.mem_cons_of_mem d he)
      rw [renameAll, if_pos ht, ih _ hnd2.2 hmem2 hdisj2]
      rw [List.map_cons, List.map_cons, List.toFinset_cons, List.toFinset_cons]
      rw [Finset.insert_sdiff_of_not_mem _ hfTr]
      rw [Finset.erase_eq, sdiff_sdiff, Finset.sup_eq_union, ← Finset.insert_eq]
      rw [Finset.insert_union, Finset.union_insert]

/-- Claim C2, publish exactness: for a batch of `K` staged items with distinct
temp names and distinct final names, all staged in the image directory, whose
final names occur nowhere in the current directory, `finalizeCacheUpdate`
leaves the directory holding exactly the `K` final names (one per staged
item, `card = K`); the delete phase removes only files outside the staged
temp-name set (every staged temp file survives it); the publish is the delete
phase followed by the renames, in that order; and no previously stored
(non-temp) file remains afterwards. -/
theorem claim_C2_publish_exactness (di : List DI) (fs : FS) (s : Finset String)
    (hdir : fs.images = some s)
    (hstaged : ∀ d ∈ di, d.tempPath ∈ s)
    (htnd : (di.map DI.tempPath).Nodup)
    (hfnd : (di.map DI.finalFilename).Nodup)
    (hold : ∀ f ∈ s, f ∉ di.map DI.finalFilename) :
    (finalizeCacheUpdate di fs).images =
        some ((di.map DI.finalFilename).toFinset) ∧
    (di.map DI.finalFilename).toFinset.card = di.length ∧
    (∀ f ∈ s, f ∈ di.map DI.tempPath →
        f ∈ deleteOldFiles (di.map DI.tempPath) s) ∧
    finalizeCacheUpdate di fs =
        { fs with
          images := some (renameAll di (deleteOldFiles (di.map DI.tempPath) s)) } ∧
    (∀ f ∈ s, f ∉ di.map DI.tempPath →
        f ∉ renameAll di (deleteOldFiles (di.map DI.tempPath) s)) := by
  have hdisj : ∀ d ∈ di, ∀ e ∈ di, d.finalFilename ≠ e.tempPath := by
    intro d hd e he hcontra
    exact hold e.tempPath (hstaged e he)
      (hcontra ▸ List.mem_map_of_mem DI.finalFilename hd)
  have hmem1 : ∀ d ∈ di, d.tempPath ∈ deleteOldFiles (di.map DI.tempPath) s := by
    intro d hd
    exact Finset.mem_filter.mpr
      ⟨hstaged d hd, List.mem_map_of_mem DI.tempPath hd⟩
  have hmain := renameAll_spec di (deleteOldFiles (di.map DI.tempPath) s)
    htnd hmem1 hdisj
  have hsub : deleteOldFiles (di.map DI.tempPath) s \
      (di.map DI.tempPath).toFinset = ∅ := by
    rw [Finset.sdiff_eq_empty_iff_subset]
    intro x hx
    exact List.mem_toFinset.mpr (Finset.mem_filter.mp hx).2
  have hres : renameAll di (deleteOldFiles (di.map DI.tempPath) s) =
      (di.map DI.finalFilename).toFinset := by
    rw [hmain, hsub, Finset.empty_union]
  refine ⟨?_, ?_, ?_, ?_, ?_⟩
  · simp only [finalizeCacheUpdate, hdir, hres]
  · rw [List.toFinset_card_of_nodup hfnd, List.length_map]
  · intro f hf hmemf
    exact Finset.mem_filter.mpr ⟨hf, hmemf⟩
  · cases fs with
    | mk cf im =>
        simp only at hdir
        subst hdir
        simp only [finalizeCacheUpdate]
  · intro f hf _
    rw [hres, List.mem_toFinset]
    exact hold f hf

/-- Witness for C2: one staged item replacing one old blob. -/
theorem claim_C2_witness :
    ((finalizeCacheUpdate [⟨"temp_1_a.png", "a.png"⟩]
        ⟨none, some {"temp_1_a.png", "b.png"}⟩).images =
      some (([⟨"temp_1_a.png", "a.png"⟩].map DI.finalFilename).toFinset)) ∧
    (([(⟨"temp_1_a.png", "a.png"⟩ : DI)].map DI.finalFilename).toFinset.card =
      [(⟨"temp_1_a.png", "a.png"⟩ : DI)].length) ∧
    (∀ f ∈ ({"temp_1_a.png", "b.png"} : Finset String),
      f ∈ [(⟨"temp_1_a.png", "a.png"⟩ : DI)].map DI.tempPath →
      f ∈ deleteOldFiles ([(⟨"temp_1_a.png", "a.png"⟩ : DI)].map DI.tempPath)
        {"temp_1_a.png", "b.png"}) ∧
    (finalizeCacheUpdate [⟨"temp_1_a.png", "a.png"⟩]
        ⟨none, some {"temp_1_a.png", "b.png"}⟩ =
      { cacheFile := none,
        images :=
          some (renameAll [⟨"temp_1_a.png", "a.png"⟩]
            (deleteOldFiles ([(⟨"temp_1_a.png", "a.png"⟩ : DI)].map DI.tempPath)
              {"temp_1_a.png", "b.png"})) }) ∧
    (∀ f ∈ ({"temp_1_a.png", "b.png"} : Finset String),
      f ∉ [(⟨"temp_1_a.png", "a.png"⟩ : DI)].map DI.tempPath →
      f ∉ renameAll [⟨"temp_1_a.png", "a.png"⟩]
        (deleteOldFiles ([(⟨"temp_1_a.png", "a.png"⟩ : DI)].map DI.tempPath)
          {"temp_1_a.png", "b.png"})) :=
  claim_C2_publish_exactness [⟨"temp_1_a.png", "a.png"⟩]
    ⟨none, some {"temp_1_a.png", "b.png"}⟩ {"temp_1_a.png", "b.png"}
    rfl (by decide) (by decide) (by decide) (by decide)

/-- When every per-item download fails, the background staging loop stages
nothing: no downloaded images are recorded, and the metadata file and blob
set are untouched (only `ensureCacheDir` may have created the empty
directory). -/
theorem stageLoop_allFail (inp : RefreshInput) :
    ∀ (data : List RawImg), (∀ img ∈ data, inp.dlOk img.image = false) →
    ∀ (i : Nat) (acc : StageAcc),
      (stageLoop inp data i acc).downloadedImages = acc.downloadedImages ∧
      (stageLoop inp data i acc).fs.cacheFile = acc.fs.cacheFile ∧
      blobSet (stageLoop inp data i acc).fs = blobSet acc.fs := by
  intro data
  induction data with
  | nil =>
      intro _ i acc
      exact ⟨rfl, rfl, rfl⟩
  | cons img rest ih =>
      intro hfail i acc
      have hstep : stageStep inp i img acc =
          { acc with fs := ensureCacheDir acc.fs } := by
        simp [stageStep, downloadAndCacheImage,
          hfail img (List.mem_cons_self img rest)]
      have := ih (fun a ha => hfail a (List.mem_cons_of_mem img ha)) (i + 1)
        (stageStep inp i img acc)
      rw [stageLoop, hstep] at *
      exact ⟨this.1, this.2.1, this.2.2⟩

/-- When every per-item download fails, the synchronous download loop returns
no items and leaves the metadata file and blob set untouched. -/
theorem syncLoop_allFail (inp : RefreshInput) :
    ∀ (data : List RawImg), (∀ img ∈ data, inp.dlOk img.image = false) →
    ∀ (acc : SyncAcc),
      (syncLoop inp data acc).imagesWithUrls = acc.imagesWithUrls ∧
      (syncLoop inp data acc).fs.cacheFile = acc.fs.cacheFile ∧
      blobSet (syncLoop inp data acc).fs = blobSet acc.fs := by
  intro data
  induction data with
  | nil =>
      intro _ acc
      exact ⟨rfl, rfl, rfl⟩
  | cons img rest ih =>
      intro hfail acc
      have hstep : syncStep inp img acc =
          { acc with fs := ensureCacheDir acc.fs } := by
        simp [syncStep, downloadAndCacheImage,
          hfail img (List.mem_cons_self img rest)]
      have := ih (fun a ha => hfail a (List.mem_cons_of_mem img ha))
        (syncStep inp img acc)
      rw [syncLoop, hstep] at *
      exact ⟨this.1, this.2.1, this.2.2⟩

/-- Counterexample for C3: the claim fails on the synchronous path. With an
existing persisted record `⟨0, [old]⟩` whose blob is missing (so the cache
loads as absent), a synchronous cycle whose bulk fetch succeeds with one item
but whose only download fails stages zero items — yet it overwrites the
persisted record with the empty record `⟨7, []⟩` instead of leaving it
unchanged. -/
theorem claim_C3_counterexample :
    fetchEarthImages ⟨some "k", some [⟨"a"⟩], fun _ => false, fun _ => 0, 7⟩
        ⟨some ⟨0, [⟨"old", "u"⟩]⟩, some ∅⟩ =
      .ok ⟨⟨some ⟨0, [⟨"old", "u"⟩]⟩, some ∅⟩, [], [Action.fetchList]⟩ ∧
    (readEndpoint ⟨some "k", some [⟨"a"⟩], fun _ => false, fun _ => 0, 7⟩ false
        ⟨some ⟨0, [⟨"old", "u"⟩]⟩, some ∅⟩).fs.cacheFile = some ⟨7, []⟩ ∧
    (some (⟨7, []⟩ : CacheRecord) ≠ some ⟨0, [⟨"old", "u"⟩]⟩) := by
  refine ⟨rfl, rfl, ?_⟩
  decide

/-- Claim C3 as amended, failure atomicity: a background refresh cycle whose bulk
fetch fails (missing key, network error, empty result) or which stages zero
items leaves the persisted record and the stored blob set unchanged; the
synchronous path leaves them unchanged only when the bulk fetch itself fails
(missing key, network error, empty result) — when the bulk fetch succeeds and
zero items stage, it instead saves an empty record (see the
counterexample). -/
theorem claim_C3_failure_atomicity (inp : RefreshInput) (s : SysState)
    (fs : FS) :
    ((inp.apiKey = none ∨ inp.listResult = none ∨ inp.listResult = some [] ∨
      (∃ data, inp.listResult = some data ∧
        ∀ img ∈ data, inp.dlOk img.image = false)) →
      (refreshCycle inp s).1.fs.cacheFile = s.fs.cacheFile ∧
      blobSet (refreshCycle inp s).1.fs = blobSet s.fs) ∧
    ((inp.apiKey = none ∨ inp.listResult = none ∨ inp.listResult = some []) →
      getCachedData inp.now fs = none →
      (readEndpoint inp false fs).fs = fs) := by
  constructor
  · intro hcase
    by_cases hflag : s.isRefreshing
    · simp [refreshCycle, hflag]
    · simp only [Bool.not_eq_true] at hflag
      rcases hcase with hk | hl | hl | ⟨data, hl, hfail⟩
      · simp [refreshCycle, hflag, hk]
      · cases hk : inp.apiKey with
        | none => simp [refreshCycle, hflag, hk]
        | some k => simp [refreshCycle, hflag, hk, hl]
      · cases hk : inp.apiKey with
        | none => simp [refreshCycle, hflag, hk]
        | some k => simp [refreshCycle, hflag, hk, hl]
      · cases hk : inp.apiKey with
        | none => simp [refreshCycle, hflag, hk]
        | some k =>
            cases hde : data.isEmpty
            · have hstage := stageLoop_allFail inp data hfail 0 ⟨s.fs, [], [], []⟩
              simp only [refreshCycle, hflag, hk, hl, hde, Bool.false_eq_true,
                if_false, hstage.1, List.length_nil, gt_iff_lt,
                Nat.lt_irrefl]
              exact ⟨hstage.2.1, hstage.2.2⟩
            · simp [refreshCycle, hflag, hk, hl, hde]
  · intro hcase hmiss
    rcases hcase with hk | hl | hl
    · simp [readEndpoint, hmiss, fetchEarthImages, hk]
    · cases hk : inp.apiKey with
      | none => simp [readEndpoint, hmiss, fetchEarthImages, hk]
      | some k => simp [readEndpoint, hmiss, fetchEarthImages, hk, hl]
    · cases hk : inp.apiKey with
      | none => simp [readEndpoint, hmiss, fetchEarthImages, hk]
      | some k => simp [readEndpoint, hmiss, fetchEarthImages, hk, hl]

/-- Witness for C3 (amended) at a concrete failed background cycle (network
error on the bulk fetch) and a concrete failed synchronous cycle. -/
theorem claim_C3_witness :
    ((refreshCycle ⟨some "k", none, fun _ => true, fun _ => 0, 7⟩
        ⟨false, ⟨some ⟨0, [⟨"old", "u"⟩]⟩, some ∅⟩⟩).1.fs.cacheFile =
          some ⟨0, [⟨"old", "u"⟩]⟩ ∧
      blobSet (refreshCycle ⟨some "k", none, fun _ => true, fun _ => 0, 7⟩
        ⟨false, ⟨some ⟨0, [⟨"old", "u"⟩]⟩, some ∅⟩⟩).1.fs =
          blobSet ⟨some ⟨0, [⟨"old", "u"⟩]⟩, some ∅⟩) ∧
    (readEndpoint ⟨some "k", none, fun _ => true, fun _ => 0, 7⟩ false
        ⟨some ⟨0, [⟨"old", "u"⟩]⟩, some ∅⟩).fs =
      ⟨some ⟨0, [⟨"old", "u"⟩]⟩, some ∅⟩ := by
  have h := claim_C3_failure_atomicity
    ⟨some "k", none, fun _ => true, fun _ => 0, 7⟩
    ⟨false, ⟨some ⟨0, [⟨"old", "u"⟩]⟩, some ∅⟩⟩
    ⟨some ⟨0, [⟨"old", "u"⟩]⟩, some ∅⟩
  exact ⟨h.1 (Or.inr (Or.inl rfl)), h.2 (Or.inr (Or.inl rfl)) rfl⟩

/-- Counterexample for C8: the claim fails on the code. A read with no cache,
demo mode off and no configured NASA API key responds 200 with an empty JSON
array — not 500 — because the handler catches the configuration error at
line 304 and degrades to an empty result. -/
theorem claim_C8_counterexample :
    readEndpoint ⟨none, none, fun _ => false, fun _ => 0, 0⟩ false
        ⟨none, none⟩ =
      ⟨200, [], ⟨none, none⟩, false, []⟩ ∧
    (200 : Nat) ≠ 500 := by
  exact ⟨rfl, by decide⟩

/-- Claim C8 as amended, configuration-error behaviour: when the NASA API key is
absent, `fetchEarthImages` throws its configuration error before performing
any fetch or file-system mutation (never partially proceeds), a background
refresh cycle aborts without fetching or touching the file system — but the
read endpoint swallows the error and responds 200 with an empty list, not
500. -/
theorem claim_C8_config_error (inp : RefreshInput) (fs : FS)
    (hkey : inp.apiKey = none) :
    fetchEarthImages inp fs = .error ("NASA API key is not configured", []) ∧
    (getCachedData inp.now fs = none →
      readEndpoint inp false fs = ⟨200, [], fs, false, []⟩) ∧
    (∀ s : SysState, s.isRefreshing = false →
      (refreshCycle inp s).1.fs = s.fs ∧
      Action.fetchList ∉ (refreshCycle inp s).2) := by
  refine ⟨?_, ?_, ?_⟩
  · simp [fetchEarthImages, hkey]
  · intro hmiss
    simp [readEndpoint, hmiss, fetchEarthImages, hkey]
  · intro s hflag
    constructor
    · simp [refreshCycle, hflag, hkey]
    · simp [refreshCycle, hflag, hkey]

/-- Witness for C8 (amended) at a concrete empty state. -/
theorem claim_C8_witness :
    fetchEarthImages ⟨none, none, fun _ => false, fun _ => 0, 0⟩ ⟨none, none⟩ =
      .error ("NASA API key is not configured", []) ∧
    readEndpoint ⟨none, none, fun _ => false, fun _ => 0, 0⟩ false
        ⟨none, none⟩ = ⟨200, [], ⟨none, none⟩, false, []⟩ ∧
    ((refreshCycle ⟨none, none, fun _ => false, fun _ => 0, 0⟩
        ⟨false, ⟨none, none⟩⟩).1.fs = ⟨none, none⟩ ∧
      Action.fetchList ∉ (refreshCycle ⟨none, none, fun _ => false, fun _ => 0, 0⟩
        ⟨false, ⟨none, none⟩⟩).2) := by
  have h := claim_C8_config_error ⟨none, none, fun _ => false, fun _ => 0, 0⟩
    ⟨none, none⟩ rfl
  exact ⟨h.1, h.2.1 rfl, h.2.2 ⟨false, ⟨none, none⟩⟩ rfl⟩

/-- Claim C9, blob endpoint not-found contract: the endpoint responds 404 with a
JSON error body exactly when the requested filename is not a file of the
image cache directory; when the file exists it is served with
`Content-Type: image/png`, `Cache-Control: public, max-age=43200` (43200
seconds = the 12-hour freshness window) and a `Content-Disposition` naming
the file; and the response is independent of the persisted cache record, so
any file in the directory — including a staged temp file — is served. -/
theorem claim_C9_blob_endpoint (filename : String) (fs : FS) :
    (((imageEndpoint filename fs).status = 404 ∧
        (imageEndpoint filename fs).jsonError = true) ↔
      imgExists fs filename = false) ∧
    (imgExists fs filename = true →
      imageEndpoint filename fs =
        ⟨200, some "image/png", some "public, max-age=43200",
         some ("inline; filename=\"" ++ filename ++ "\""), false⟩) ∧
    (∀ c, imageEndpoint filename { fs with cacheFile := c } =
      imageEndpoint filename fs) ∧
    (43200 : Int) * 1000 = CACHE_DURATION := by
  refine ⟨?_, ?_, ?_, by decide⟩
  · by_cases h : imgExists fs filename
    · simp [imageEndpoint, h]
    · simp only [Bool.not_eq_true] at h
      simp [imageEndpoint, h]
  · intro h
    simp [imageEndpoint, h]
  · intro c
    rfl

/-- Witness for C9: a staged temp file present in the directory is served
even though the cache record does not mention it. -/
theorem claim_C9_witness :
    (((imageEndpoint "temp_1_a.png" ⟨none, some {"temp_1_a.png"}⟩).status = 404 ∧
        (imageEndpoint "temp_1_a.png" ⟨none, some {"temp_1_a.png"}⟩).jsonError = true) ↔
      imgExists ⟨none, some {"temp_1_a.png"}⟩ "temp_1_a.png" = false) ∧
    (imgExists ⟨none, some {"temp_1_a.png"}⟩ "temp_1_a.png" = true →
      imageEndpoint "temp_1_a.png" ⟨none, some {"temp_1_a.png"}⟩ =
        ⟨200, some "image/png", some "public, max-age=43200",
         some ("inline; filename=\"" ++ "temp_1_a.png" ++ "\""), false⟩) ∧
    (∀ c, imageEndpoint "temp_1_a.png"
        { (⟨none, some {"temp_1_a.png"}⟩ : FS) with cacheFile := c } =
      imageEndpoint "temp_1_a.png" ⟨none, some {"temp_1_a.png"}⟩) ∧
    (43200 : Int) * 1000 = CACHE_DURATION :=
  claim_C9_blob_endpoint "temp_1_a.png" ⟨none, some {"temp_1_a.png"}⟩

/-- Claim C10, empty-record cache hit: when a synchronous cycle's bulk fetch
succeeds but every per-item download fails, the read path saves the empty
record and returns `[]`; afterwards, as long as the record is younger than
the freshness window, `getCachedData` reports the cache as present (the blob
cross-validation passes vacuously on the empty list) and every read returns
the empty id list with status 200, performing no fetch and scheduling no
refresh. -/
theorem claim_C10_empty_record (inp : RefreshInput) (fs : FS)
    (data : List RawImg)
    (hkey : inp.apiKey.isSome = true)
    (hlist : inp.listResult = some data)
    (hne : data ≠ [])
    (hfail : ∀ img ∈ data, inp.dlOk img.image = false)
    (hmiss : getCachedData inp.now fs = none) :
    (readEndpoint inp false fs).fs.cacheFile = some ⟨inp.now, []⟩ ∧
    (readEndpoint inp false fs).response = [] ∧
    (readEndpoint inp false fs).status = 200 ∧
    (∀ now2 : Int, now2 - inp.now < CACHE_DURATION →
      getCachedData now2 (readEndpoint inp false fs).fs = some ⟨[], false⟩ ∧
      ∀ (inp2 : RefreshInput) (demo2 : Bool), inp2.now = now2 →
        readEndpoint inp2 demo2 (readEndpoint inp false fs).fs =
          ⟨200, [], (readEndpoint inp false fs).fs, false, []⟩) := by
  obtain ⟨k, hk⟩ := Option.isSome_iff_exists.mp hkey
  have hde : data.isEmpty = false := by
    cases data with
    | nil => exact absurd rfl hne
    | cons a l => rfl
  have hsync := syncLoop_allFail inp data hfail ⟨fs, [], [Action.fetchList]⟩
  have hfe : fetchEarthImages inp fs =
      .ok ⟨(syncLoop inp data ⟨fs, [], [Action.fetchList]⟩).fs,
           (syncLoop inp data ⟨fs, [], [Action.fetchList]⟩).imagesWithUrls,
           (syncLoop inp data ⟨fs, [], [Action.fetchList]⟩).trace⟩ := by
    simp [fetchEarthImages, hk, hlist, hde]
  have hread : readEndpoint inp false fs =
      ⟨200, [],
       saveToCache inp.now []
         (syncLoop inp data ⟨fs, [], [Action.fetchList]⟩).fs,
       false,
       (syncLoop inp data ⟨fs, [], [Action.fetchList]⟩).trace ++
         [Action.save]⟩ := by
    simp [readEndpoint, hmiss, hfe, hsync.1]
  have hcf : (readEndpoint inp false fs).fs.cacheFile = some ⟨inp.now, []⟩ := by
    rw [hread]
    rfl
  refine ⟨hcf, by rw [hread], by rw [hread], ?_⟩
  intro now2 hfresh
  have hstale : isStale now2 inp.now = false := by
    simp only [isStale, decide_eq_false_iff_not]
    omega
  have hgot : getCachedData now2 (readEndpoint inp false fs).fs =
      some ⟨[], false⟩ := by
    rw [hread]
    simp [getCachedData, saveToCache, ensureCacheDir, hstale]
  refine ⟨hgot, ?_⟩
  intro inp2 demo2 hnow2
  have hgot2 : getCachedData inp2.now (readEndpoint inp false fs).fs =
      some ⟨[], false⟩ := by
    rw [hnow2]
    exact hgot
  generalize hF : (readEndpoint inp false fs).fs = F at hgot2 ⊢
  simp [readEndpoint, hgot2]

/-- Witness for C10: one fetched item whose download fails. -/
theorem claim_C10_witness :
    (readEndpoint ⟨some "k", some [⟨"a"⟩], fun _ => false, fun _ => 0, 7⟩ false
        ⟨none, none⟩).fs.cacheFile = some ⟨7, []⟩ ∧
    (readEndpoint ⟨some "k", some [⟨"a"⟩], fun _ => false, fun _ => 0, 7⟩ false
        ⟨none, none⟩).response = [] ∧
    (readEndpoint ⟨some "k", some [⟨"a"⟩], fun _ => false, fun _ => 0, 7⟩ false
        ⟨none, none⟩).status = 200 ∧
    (∀ now2 : Int, now2 - 7 < CACHE_DURATION →
      getCachedData now2
          (readEndpoint ⟨some "k", some [⟨"a"⟩], fun _ => false, fun _ => 0, 7⟩
            false ⟨none, none⟩).fs = some ⟨[], false⟩ ∧
      ∀ (inp2 : RefreshInput) (demo2 : Bool), inp2.now = now2 →
        readEndpoint inp2 demo2
            (readEndpoint ⟨some "k", some [⟨"a"⟩], fun _ => false, fun _ => 0, 7⟩
              false ⟨none, none⟩).fs =
          ⟨200, [],
           (readEndpoint ⟨some "k", some [⟨"a"⟩], fun _ => false, fun _ => 0, 7⟩
             false ⟨none, none⟩).fs, false, []⟩) :=
  claim_C10_empty_record ⟨some "k", some [⟨"a"⟩], fun _ => false, fun _ => 0, 7⟩
    ⟨none, none⟩ [⟨"a"⟩] rfl rfl (by decide) (by decide) rfl

/-- A list is an initial segment of itself followed by anything. -/
theorem leadsWith_self_append (p r : List Char) :
    leadsWith p (p ++ r) = true := by
  induction p with
  | nil => rfl
  | cons a p ih => simp [leadsWith, ih]

/-- If `temp_` begins `a ++ ".png"`, it already begins `a`: no suffix of the
`temp_` marker coincides with an initial segment of `.png`. -/
theorem leadsWith_strip (a : List Char)
    (h : leadsWith tempTag (a ++ pngTail) = true) :
    leadsWith tempTag a = true := by
  rcases a with _ | ⟨c1, a⟩
  · exact absurd h (by decide)
  rcases a with _ | ⟨c2, a⟩
  · simp only [tempTag, pngTail, List.cons_append, List.nil_append, leadsWith,
      Bool.and_eq_true] at h
    exact absurd h.2.1 (by decide)
  rcases a with _ | ⟨c3, a⟩
  · simp only [tempTag, pngTail, List.cons_append, List.nil_append, leadsWith,
      Bool.and_eq_true] at h
    exact absurd h.2.2.1 (by decide)
  rcases a with _ | ⟨c4, a⟩
  · simp only [tempTag, pngTail, List.cons_append, List.nil_append, leadsWith,
      Bool.and_eq_true] at h
    exact absurd h.2.2.2.1 (by decide)
  rcases a with _ | ⟨c5, a⟩
  · simp only [tempTag, pngTail, List.cons_append, List.nil_append, leadsWith,
      Bool.and_eq_true] at h
    exact absurd h.2.2.2.2.1 (by decide)
  · simp only [tempTag, pngTail, List.cons_append, List.nil_append, leadsWith,
      Bool.and_eq_true] at h ⊢
    exact ⟨h.1, h.2.1, h.2.2.1, h.2.2.2.1, h.2.2.2.2.1, trivial⟩

/-- Every temp filename begins with the `temp_` marker. -/
theorem tempFilename_marked (t : Int) (id : String) :
    leadsWith tempTag (tempFilename t id).data = true := by
  have h : (tempFilename t id).data =
      tempTag ++ ((toString t).data ++ ("_".data ++ (id.data ++ ".png".data))) := by
    simp only [tempFilename, String.data_append, List.append_assoc]
    rfl
  rw [h]
  exact leadsWith_self_append _ _

/-- A temp filename never equals the final filename of an id that does not
itself begin with the `temp_` marker. -/
theorem tempFilename_ne_final (t : Int) (id id2 : String)
    (h : leadsWith tempTag id2.data = false) :
    tempFilename t id ≠ finalFilename id2 := by
  intro heq
  have h1 : leadsWith tempTag (finalFilename id2).data = true :=
    heq ▸ tempFilename_marked t id
  have h2 : (finalFilename id2).data = id2.data ++ pngTail := by
    show (id2 ++ ".png").data = _
    rw [String.data_append]
    rfl
  rw [h2] at h1
  have h3 := leadsWith_strip id2.data h1
  rw [h] at h3
  exact Bool.false_ne_true h3

/-- Every blob write performed by the background staging loop goes to a name
of the form `tempFilename t id`. -/
theorem stageLoop_writes (inp : RefreshInput) :
    ∀ (data : List RawImg) (i : Nat) (acc : StageAcc) (name : String),
      Action.stageWrite name ∈ (stageLoop inp data i acc).trace →
      Action.stageWrite name ∈ acc.trace ∨ ∃ t id, name = tempFilename t id := by
  intro data
  induction data with
  | nil =>
      intro i acc name h
      exact Or.inl h
  | cons img rest ih =>
      intro i acc name h
      rcases ih (i + 1) (stageStep inp i img acc) name h with h2 | h2
      · by_cases hok : inp.dlOk img.image
        · simp only [stageStep, downloadAndCacheImage, hok, if_true] at h2
          rcases List.mem_append.mp h2 with h3 | h3
          · exact Or.inl h3
          · rcases List.mem_singleton.mp h3 with h4
            exact Or.inr ⟨inp.itemTime i, img.image, (Action.stageWrite.inj h4)⟩
        · simp only [Bool.not_eq_true] at hok
          simp only [stageStep, downloadAndCacheImage, hok, Bool.false_eq_true,
            if_false] at h2
          exact Or.inl h2
      · exact Or.inr h2

/-- Counterexample for C7: the claim fails on the synchronous path. A
synchronous fetch-and-cache cycle with one item `"a"` whose download succeeds
performs its staging blob write directly under `"a.png"` — the final filename
of that very item (`fetchEarthImages` passes the final name as the temp name,
line 268) — not under a temporary name distinct from every final name. -/
theorem claim_C7_counterexample :
    fetchEarthImages ⟨some "k", some [⟨"a"⟩], fun _ => true, fun _ => 0, 7⟩
        ⟨none, none⟩ =
      .ok ⟨⟨none, some {"a.png"}⟩,
           [⟨"a", "/WholeEarthSatelliteImage/image/a.png"⟩],
           [Action.fetchList, Action.stageWrite (finalFilename "a")]⟩ ∧
    finalFilename "a" = "a.png" ∧
    leadsWith tempTag (finalFilename "a").data = false := by
  refine ⟨rfl, rfl, by decide⟩

/-- Claim C7 as amended, staging name invariant for the background path: every
blob write performed while staging a *background* refresh cycle goes to a
filename beginning with the `temp_` marker, hence distinct from the final
filename `` `${id}.png` `` of every image id that does not itself begin with
`temp_`; the synchronous path instead writes directly under final filenames
(see the counterexample). -/
theorem claim_C7_staging_names (inp : RefreshInput) (s : SysState)
    (name : String)
    (h : Action.stageWrite name ∈ (refreshCycle inp s).2) :
    leadsWith tempTag name.data = true ∧
    ∀ id2 : String, leadsWith tempTag id2.data = false →
      name ≠ finalFilename id2 := by
  have hform : ∃ t id, name = tempFilename t id := by
    by_cases hflag : s.isRefreshing
    · simp [refreshCycle, hflag] at h
    · simp only [Bool.not_eq_true] at hflag
      simp only [refreshCycle, hflag, Bool.false_eq_true, if_false] at h
      rcases List.mem_cons.mp h with hc | h
      · exact absurd hc (by simp)
      rcases List.mem_append.mp h with h | hc
      · split at h
        · simp at h
        · split at h
          · simp at h
          · split at h
            · simp at h
            · split at h
              · simp only at h
                rcases List.mem_cons.mp h with hc | h
                · exact absurd hc (by simp)
                rcases List.mem_append.mp h with h | hc
                · rcases stageLoop_writes inp _ 0 ⟨s.fs, [], [], []⟩ name h with
                    h3 | h3
                  · simp at h3
                  · exact h3
                · simp at hc
              · simp only at h
                rcases List.mem_cons.mp h with hc | h
                · exact absurd hc (by simp)
                rcases stageLoop_writes inp _ 0 ⟨s.fs, [], [], []⟩ name h with
                  h3 | h3
                · simp at h3
                · exact h3
      · simp at hc
  obtain ⟨t, id, rfl⟩ := hform
  exact ⟨tempFilename_marked t id, fun id2 h2 => tempFilename_ne_final t id id2 h2⟩

/-- Witness for C7 (amended): the staged write of a concrete successful
background cycle. -/
theorem claim_C7_witness :
    leadsWith tempTag (tempFilename 0 "a").data = true ∧
    ∀ id2 : String, leadsWith tempTag id2.data = false →
      tempFilename 0 "a" ≠ finalFilename id2 :=
  claim_C7_staging_names ⟨some "k", some [⟨"a"⟩], fun _ => true, fun _ => 0, 7⟩
    ⟨false, ⟨none, none⟩⟩ (tempFilename 0 "a") (by decide)

/-- Witness for C6 at a concrete failing cycle (missing API key). -/
theorem claim_C6_witness :
    (refreshCycle ⟨none, none, fun _ => true, fun _ => 0, 7⟩
        ⟨false, ⟨none, none⟩⟩).1.isRefreshing = false ∧
    (refreshCycle ⟨none, none, fun _ => true, fun _ => 0, 7⟩
        ⟨false, ⟨none, none⟩⟩).2.getLast? = some (Action.setFlag false) :=
  claim_C6_flag_release ⟨none, none, fun _ => true, fun _ => 0, 7⟩
    ⟨false, ⟨none, none⟩⟩ rfl

end EarthCache
